import Mathlib

/-!
Shallow embedding of `newsletter-infra/lambdas/newsletter-agent/src/main.py`.

Python strings are modelled as lists of characters (`PyStr`).  The external
collaborators (DuckDuckGo search, Newspaper4k extraction, the two LLM
assistants, and the DynamoDB status table) are modelled as parameters of an
environment record; a call that may raise a Python exception is modelled as
`Except PyStr`, the payload being `str(e)`.  DynamoDB `update_item` calls are
recorded as a trace of writes.
-/

/-- Model of a Python `str`: its sequence of characters. -/
abbrev PyStr := List Char

/-- Auxiliary recursion for Python `str.split()` with no separator argument:
splits on runs of whitespace and never produces empty tokens.  `acc` is the
reversed current token. -/
def wordsAux : List Char → List Char → List (List Char)
  | [], acc => if acc.isEmpty then [] else [acc.reverse]
  | c :: cs, acc =>
    if c.isWhitespace then
      if acc.isEmpty then wordsAux cs [] else acc.reverse :: wordsAux cs []
    else wordsAux cs (c :: acc)

/-- Python `text.split()`: the whitespace-delimited tokens of `text`.
Whitespace is `Char.isWhitespace` (space, tab, carriage return, newline), an
ASCII approximation of Python's whitespace class; every definition and
theorem below uses the same class consistently. -/
def words (s : PyStr) : List PyStr := wordsAux s []

/-- Python `len(text.split())`: the number of whitespace-delimited tokens. -/
def wordCount (s : PyStr) : Nat := (words s).length

/-- Python `" ".join(tokens)`: tokens joined by single spaces. -/
def joinSpace : List PyStr → PyStr
  | [] => []
  | [w] => w
  | w :: ws => w ++ ' ' :: joinSpace ws

/-- `truncate_text(text, words)` from main.py line 34-35:
`return " ".join(text.split()[:words])`. -/
def truncate_text (text : PyStr) (maxWords : Nat) : PyStr :=
  joinSpace ((words text).take maxWords)

/-- A token is usable if it is nonempty and contains no whitespace. -/
def GoodToken (w : PyStr) : Prop := w ≠ [] ∧ ∀ c ∈ w, ¬ c.isWhitespace

/-- One search result returned by `ddgs.news` (main.py line 43): a record
carrying at least `title`, `date`, `body`; the `url` key may be absent. -/
structure SearchResult where
  url : Option PyStr
  title : PyStr
  date : PyStr
  body : PyStr
  deriving DecidableEq

/-- A search result enriched with extracted full text (main.py line 48:
`r["text"] = article_data["text"]`), as appended to `news_results`. -/
structure NewsRecord where
  url : PyStr
  title : PyStr
  date : PyStr
  body : PyStr
  text : PyStr
  deriving DecidableEq

/-- The external collaborators.  A call that may raise a Python exception is
`Except PyStr`, the payload modelling `str(e)`.  `extract u` models
`newspaper_tools.get_article_data(u)`: `none` is a falsy return (`None` or an
empty dict), `some none` a truthy dict without a `"text"` key, and
`some (some t)` a truthy dict whose `"text"` entry is `t`. -/
structure Env where
  search : PyStr → Nat → Except PyStr (List SearchResult)
  extract : PyStr → Except PyStr (Option (Option PyStr))
  summarize : PyStr → Except PyStr PyStr
  compose : PyStr → Except PyStr PyStr

/-- The Lambda input event; each key may be absent (access then raises
`KeyError` at main.py lines 21-22). -/
structure Event where
  processId : Option PyStr
  question : Option PyStr

/-- One `process_table.update_item` call, by the shape of its
`UpdateExpression`: main.py lines 25-30, 164-172 and 187-192. -/
inductive DbWrite where
  | setStatus (status : PyStr)
  | setStatusResult (status : PyStr) (result : PyStr)
  | setStatusError (status : PyStr) (error : PyStr)
  deriving DecidableEq

/-- The serialized response body: `json.dumps({...})` of the success dict
(main.py lines 176-182) or of the failure dict (line 195), modelled
structurally. -/
inductive Body where
  | success (processId : PyStr) (message : PyStr) (result : PyStr)
  | failure (error : PyStr)
  deriving DecidableEq

/-- The Lambda response record (main.py lines 174-184 and 193-197). -/
structure Response where
  statusCode : Nat
  body : Body
  contentType : PyStr
  deriving DecidableEq

/-- Lower-case hexadecimal digit, for `json.dumps` unicode escapes. -/
def hexDigit (n : Nat) : Char :=
  if n < 10 then Char.ofNat (48 + n) else Char.ofNat (87 + n)

/-- A `\uXXXX` escape sequence for a code unit `n < 0x10000`. -/
def uEscape4 (n : Nat) : List Char :=
  ['\\', 'u', hexDigit (n / 4096 % 16), hexDigit (n / 256 % 16),
   hexDigit (n / 16 % 16), hexDigit (n % 16)]

/-- How Python `json.dumps` (default `ensure_ascii=True`) renders one
character of a string: short escapes for the JSON control characters, raw for
printable ASCII (0x20-0x7e), `\uXXXX` (with surrogate pairs above the BMP)
for everything else. -/
def jsonEscapeChar (c : Char) : List Char :=
  if c = '"' then ['\\', '"']
  else if c = '\\' then ['\\', '\\']
  else if c = '\n' then ['\\', 'n']
  else if c = '\r' then ['\\', 'r']
  else if c = '\t' then ['\\', 't']
  else if c.toNat = 8 then ['\\', 'b']
  else if c.toNat = 12 then ['\\', 'f']
  else if 32 ≤ c.toNat ∧ c.toNat ≤ 126 then [c]
  else if c.toNat ≤ 65535 then uEscape4 c.toNat
  else uEscape4 (55296 + (c.toNat - 65536) / 1024) ++ uEscape4 (56320 + (c.toNat - 65536) % 1024)

/-- Python `json.dumps(s)` for a string `s`: the escaped characters wrapped
in double quotes.  Used at main.py line 170 (`":result": json.dumps(res)`). -/
def pyJsonDumpsStr (s : PyStr) : PyStr :=
  '"' :: (s.flatMap jsonEscapeChar ++ ['"'])

/-- The collection loop, main.py lines 44-49: for each result carrying a
`"url"` key, call the extractor; keep the result (enriched with the extracted
text) only when the extractor returned a truthy value containing a `"text"`
key.  An exception from the extractor propagates. -/
def collectNews (extract : PyStr → Except PyStr (Option (Option PyStr))) :
    List SearchResult → Except PyStr (List NewsRecord)
  | [] => Except.ok []
  | r :: rs =>
    match r.url with
    | none => collectNews extract rs
    | some u =>
      match extract u with
      | Except.error e => Except.error e
      | Except.ok articleData =>
        match articleData with
        | some (some t) =>
          match collectNews extract rs with
          | Except.error e => Except.error e
          | Except.ok rest => Except.ok (⟨u, r.title, r.date, r.body, t⟩ :: rest)
        | _ => collectNews extract rs

/-- `news_summary_length = 5000`, main.py line 37. -/
def newsSummaryLength : Nat := 5000

/-- The per-record block appended before the summary, main.py lines 91-94. -/
def sectionHeader (nr : NewsRecord) : PyStr :=
  "### ".data ++ nr.title ++ "\n\n".data
    ++ "- Date: ".data ++ nr.date ++ "\n\n".data
    ++ "- URL: ".data ++ nr.url ++ "\n\n".data
    ++ "#### Introduction\n\n".data ++ nr.body ++ "\n\n".data

/-- The per-summary ceiling, main.py lines 97-99: if the summary exceeds
`news_summary_length` words it is truncated to that many words. -/
def clampSummary (summary : PyStr) : PyStr :=
  if wordCount summary > newsSummaryLength then truncate_text summary newsSummaryLength
  else summary

/-- The summarization loop, main.py lines 90-107: append the section header,
run the summarizer (an exception propagates), clamp the summary, append the
summary block, and break once the accumulated text exceeds
`news_summary_length` words. -/
def newsSummaryLoop (summarize : PyStr → Except PyStr PyStr) :
    List NewsRecord → PyStr → Except PyStr PyStr
  | [], acc => Except.ok acc
  | nr :: rest, acc =>
    match summarize nr.text with
    | Except.error e => Except.error e
    | Except.ok raw =>
      let acc2 := acc ++ sectionHeader nr ++ "#### Summary\n\n".data
        ++ clampSummary raw ++ "\n\n---\n\n".data
      if wordCount acc2 > newsSummaryLength then Except.ok acc2
      else newsSummaryLoop summarize rest acc2

/-- The topic header line, main.py line 110. -/
def topicHeader (question : PyStr) : PyStr :=
  "# Topic: ".data ++ question ++ "\n\n".data

/-- Draft assembly, main.py lines 109-116: the topic header, followed by the
Summary of News Articles block only when `news_summary` is non-empty. -/
def buildDraft (question newsSummary : PyStr) : PyStr :=
  if newsSummary.isEmpty then topicHeader question
  else topicHeader question
    ++ "## Summary of News Articles\n\n".data
    ++ "This section provides a summary of the news articles about ".data
    ++ question ++ ".\n\n".data
    ++ "<news_summary>\n\n".data ++ newsSummary ++ "\n\n".data
    ++ "</news_summary>\n\n".data

/-- The body of the `try` block, main.py lines 32-162: search (limit 5),
collect, summarize (only when at least one source was collected), assemble
the draft and compose.  Any stage exception surfaces as `Except.error`. -/
def runPipeline (env : Env) (question : PyStr) : Except PyStr PyStr := do
  let results ← env.search question 5
  let newsResults ← collectNews env.extract results
  let newsSummary ←
    if newsResults.isEmpty then Except.ok ([] : PyStr)
    else newsSummaryLoop env.summarize newsResults []
  env.compose (buildDraft question newsSummary)

/-- `"Process completed successfully"`, main.py line 179. -/
def processCompletedMsg : PyStr := "Process completed successfully".data

/-- `"An error occurred during processing"`, main.py line 195. -/
def genericErrorMsg : PyStr := "An error occurred during processing".data

/-- `"application/json"`, main.py lines 183 and 196. -/
def contentTypeJson : PyStr := "application/json".data

/-- `handler(event, context)`, main.py lines 20-197.  Returns the ordered
trace of status-table writes together with either the returned response or
the uncaught exception (a missing event key raises before any write). -/
def handler (env : Env) (event : Event) : List DbWrite × Except PyStr Response :=
  match event.processId with
  | none => ([], Except.error "KeyError: processId".data)
  | some processId =>
    match event.question with
    | none => ([], Except.error "KeyError: question".data)
    | some question =>
      match runPipeline env question with
      | Except.ok res =>
        ([DbWrite.setStatus "PROCESSING".data,
          DbWrite.setStatusResult "COMPLETED".data (pyJsonDumpsStr res)],
         Except.ok ⟨200, Body.success processId processCompletedMsg res, contentTypeJson⟩)
      | Except.error e =>
        ([DbWrite.setStatus "PROCESSING".data,
          DbWrite.setStatusError "FAILED".data e],
         Except.ok ⟨500, Body.failure genericErrorMsg, contentTypeJson⟩)

/-- The status a write sets. -/
def statusOf : DbWrite → PyStr
  | DbWrite.setStatus s => s
  | DbWrite.setStatusResult s _ => s
  | DbWrite.setStatusError s _ => s

/-- The `result` field a write sets, if any. -/
def resultField : DbWrite → Option PyStr
  | DbWrite.setStatusResult _ r => some r
  | _ => none

/-- The `error` field a write sets, if any. -/
def errorField : DbWrite → Option PyStr
  | DbWrite.setStatusError _ e => some e
  | _ => none

/-- A write of one of the two terminal statuses. -/
def isTerminalWrite (w : DbWrite) : Bool :=
  statusOf w == "COMPLETED".data || statusOf w == "FAILED".data

/-- A text consisting of `n` single-letter tokens. -/
def manyWords (n : Nat) : PyStr := joinSpace (List.replicate n ['a'])

/-- Witness for the amended claim C1: a search collaborator that raises. -/
def envC1 : Env :=
  ⟨fun _ _ => Except.error "boom".data, fun _ => Except.ok none,
   fun _ => Except.ok [], fun _ => Except.ok []⟩

/-- A well-formed event used by the C1 theorems. -/
def eventC1 : Event := ⟨some "p1".data, some "q1".data⟩

/-- An environment whose search collaborator raises an exception with an
empty string description, as `raise Exception()` would. -/
def envC1bad : Env :=
  ⟨fun _ _ => Except.error [], fun _ => Except.ok none,
   fun _ => Except.ok [], fun _ => Except.ok []⟩

/-- An environment in which search finds nothing and the composer returns
the two-character article `"hi"`. -/
def envC2 : Env :=
  ⟨fun _ _ => Except.ok [], fun _ => Except.ok none,
   fun _ => Except.ok [], fun _ => Except.ok "hi".data⟩

/-- A well-formed event used by the C2 theorems. -/
def eventC2 : Event := ⟨some "p2".data, some "q2".data⟩

/-- A trivial environment for the C10 witness. -/
def envC10 : Env :=
  ⟨fun _ _ => Except.ok [], fun _ => Except.ok none,
   fun _ => Except.ok [], fun _ => Except.ok []⟩

/-- The per-result keep-or-drop decision of the collection loop, as an
optional map: a result is kept iff it carries a url and extraction returned a
truthy value containing a text field. -/
def keepResult (extract : PyStr → Except PyStr (Option (Option PyStr)))
    (r : SearchResult) : Option NewsRecord :=
  match r.url with
  | none => none
  | some u =>
    match extract u with
    | Except.ok (some (some t)) => some ⟨u, r.title, r.date, r.body, t⟩
    | _ => none

/-- Extractor for the C4 witness: succeeds with text `"x"` everywhere. -/
def extractC4 : PyStr → Except PyStr (Option (Option PyStr)) :=
  fun _ => Except.ok (some (some "x".data))

/-- Inputs for the C4 witness: one result with a url, one without. -/
def rsC4 : List SearchResult :=
  [⟨some "u".data, "t1".data, "d1".data, "b1".data⟩,
   ⟨none, "t2".data, "d2".data, "b2".data⟩]

/-- Extractor returning a truthy record whose text field is empty. -/
def extractC4bad : PyStr → Except PyStr (Option (Option PyStr)) :=
  fun _ => Except.ok (some (some []))

/-- A single search result carrying a url. -/
def rC4 : SearchResult := ⟨some "u".data, "t".data, "d".data, "b".data⟩

/-- The record the collection loop produces for `rC4` under `extractC4bad`. -/
def nrC4 : NewsRecord := ⟨"u".data, "t".data, "d".data, "b".data, []⟩

/-- Environment for the C8 witness: a search that finds nothing and a
composer that returns the article `"art"`. -/
def envC8 : Env :=
  ⟨fun _ _ => Except.ok [], fun _ => Except.ok none,
   fun _ => Except.ok [], fun _ => Except.ok "art".data⟩

/-- A well-formed event used by the C8 witness. -/
def eventC8 : Event := ⟨some "p8".data, some "q8".data⟩

/-- The full text the loop body appends for one record, as a function of a
pure summarizer abstraction `f`: the section header followed by the Summary
heading, the clamped summary and the separator. -/
def recordSection (f : PyStr → PyStr) (nr : NewsRecord) : PyStr :=
  sectionHeader nr ++ "#### Summary\n\n".data
    ++ clampSummary (f nr.text) ++ "\n\n---\n\n".data

/-- The accumulated draft text after appending the sections of a list of
records in order. -/
def appendSections (f : PyStr → PyStr) : PyStr → List NewsRecord → PyStr
  | acc, [] => acc
  | acc, nr :: rest => appendSections f (acc ++ recordSection f nr) rest

/-- The number of records the loop processes before stopping: it stops right
after the first record whose appended section pushes the accumulated word
count beyond the budget, or after the last record. -/
def prefixLen (f : PyStr → PyStr) : List NewsRecord → PyStr → Nat
  | [], _ => 0
  | nr :: rest, acc =>
    if wordCount (acc ++ recordSection f nr) > newsSummaryLength then 1
    else prefixLen f rest (acc ++ recordSection f nr) + 1

/-- The identity summarizer abstraction used by the C3 witness. -/
def fC3 : PyStr → PyStr := fun t => t

/-- The always-succeeding summarizer collaborator used by the C3 witness. -/
def gC3 : PyStr → Except PyStr PyStr := fun t => Except.ok t

/-- A one-record input for the C3 witness. -/
def rsC3 : List NewsRecord := [⟨"u".data, "t".data, "d".data, "b".data, "x".data⟩]

theorem wordsAux_append_of_noWs (w : List Char) (hw : ∀ c ∈ w, ¬ c.isWhitespace) :
    ∀ (rest acc : List Char), wordsAux (w ++ rest) acc = wordsAux rest (w.reverse ++ acc) := by
  induction w with
  | nil => intro rest acc; simp
  | cons c cs ih =>
    intro rest acc
    have hc : ¬ c.isWhitespace := hw c (List.mem_cons_self c cs)
    have hcs : ∀ x ∈ cs, ¬ x.isWhitespace := fun x hx => hw x (List.mem_cons_of_mem c hx)
    rw [List.cons_append, wordsAux, if_neg hc, ih hcs rest (c :: acc)]
    simp

theorem words_of_goodToken (w : PyStr) (hw : GoodToken w) : words w = [w] := by
  obtain ⟨hne, hws⟩ := hw
  have h := wordsAux_append_of_noWs w hws [] []
  simp only [List.append_nil] at h
  rw [words, h]
  simp [wordsAux, List.isEmpty_iff, hne]

theorem words_goodToken_cons (w : PyStr) (hw : GoodToken w) (rest : List Char) :
    words (w ++ ' ' :: rest) = w :: words rest := by
  obtain ⟨hne, hws⟩ := hw
  rw [words, wordsAux_append_of_noWs w hws (' ' :: rest) []]
  have hsp : (' ' : Char).isWhitespace := by decide
  simp only [List.append_nil, wordsAux, hsp, if_pos]
  rw [if_neg (by simpa [List.isEmpty_iff] using hne)]
  simp [words]

/-- Joining good tokens with single spaces and re-splitting recovers the
tokens: the round-trip property behind the Text Budgeter contract. -/
theorem words_joinSpace (ws : List PyStr) (h : ∀ w ∈ ws, GoodToken w) :
    words (joinSpace ws) = ws := by
  induction ws with
  | nil => simp [joinSpace, words, wordsAux]
  | cons w tl ih =>
    match tl with
    | [] =>
      exact words_of_goodToken w (h w (List.mem_cons_self w []))
    | t :: ts =>
      have hw : GoodToken w := h w (List.mem_cons_self w (t :: ts))
      have htl : ∀ x ∈ t :: ts, GoodToken x := fun x hx => h x (List.mem_cons_of_mem w hx)
      rw [show joinSpace (w :: t :: ts) = w ++ ' ' :: joinSpace (t :: ts) from rfl]
      rw [words_goodToken_cons w hw (joinSpace (t :: ts)), ih htl]

theorem wordsAux_goodTokens (s : List Char) :
    ∀ acc : List Char, (∀ c ∈ acc, ¬ c.isWhitespace) →
      ∀ w ∈ wordsAux s acc, GoodToken w := by
  induction s with
  | nil =>
    intro acc hacc w hw
    by_cases h : acc.isEmpty
    · simp [wordsAux, h] at hw
    · simp only [wordsAux, h, if_neg, Bool.not_eq_true, if_false, List.mem_singleton] at hw
      subst hw
      refine ⟨by simpa [List.isEmpty_iff] using h, ?_⟩
      intro c hc
      exact hacc c (List.mem_reverse.mp hc)
  | cons c cs ih =>
    intro acc hacc w hw
    by_cases hcws : c.isWhitespace
    · by_cases hacc0 : acc.isEmpty
      · rw [wordsAux, if_pos hcws, if_pos hacc0] at hw
        exact ih [] (by simp) w hw
      · rw [wordsAux, if_pos hcws, if_neg hacc0] at hw
        rcases List.mem_cons.mp hw with hw1 | hw1
        · subst hw1
          refine ⟨by simpa [List.isEmpty_iff] using hacc0, ?_⟩
          intro x hx
          exact hacc x (List.mem_reverse.mp hx)
        · exact ih [] (by simp) w hw1
    · rw [wordsAux, if_neg hcws] at hw
      refine ih (c :: acc) ?_ w hw
      intro x hx
      rcases List.mem_cons.mp hx with rfl | hx
      · exact hcws
      · exact hacc x hx

/-- Every token produced by `words` is nonempty and whitespace-free. -/
theorem words_goodTokens (s : PyStr) : ∀ w ∈ words s, GoodToken w :=
  wordsAux_goodTokens s [] (by simp)

theorem words_truncate_text (text : PyStr) (maxWords : Nat) :
    words (truncate_text text maxWords) = (words text).take maxWords := by
  refine words_joinSpace ((words text).take maxWords) ?_
  intro w hw
  exact words_goodTokens text w (List.mem_of_mem_take hw)

/-- Binding a successful `Except` computation reduces to the continuation. -/
theorem okBind {ε α β : Type} (a : α) (f : α → Except ε β) :
    ((Except.ok a : Except ε α) >>= f) = f a := rfl

/-- Claim C6: for every text and every maxWords, the word count of
`truncate_text text maxWords` equals `min (wordCount text) maxWords`, and
truncating the empty string yields the empty string. -/
theorem truncate_text_wordCount (text : PyStr) (maxWords : Nat) :
    wordCount (truncate_text text maxWords) = min (wordCount text) maxWords ∧
    truncate_text [] maxWords = [] := by
  constructor
  · rw [wordCount, words_truncate_text, List.length_take, wordCount, Nat.min_comm]
  · simp [truncate_text, words, wordsAux, joinSpace]

/-- Counterexample to claim C9: `"a  b"` has two tokens, within a budget of
two words, yet `truncate_text` rewrites the double space to a single one and
so does not return the text unchanged. -/
theorem truncate_text_not_identity_cex :
    wordCount "a  b".data ≤ 2 ∧ truncate_text "a  b".data 2 ≠ "a  b".data := by
  decide

/-- Claim C9 (amended): on a text of at most `maxWords` tokens,
`truncate_text` returns the text's tokens joined by single spaces; it is the
identity whenever the text is already in that whitespace-normalized form. -/
theorem truncate_text_noop_normalized (text : PyStr) (maxWords : Nat)
    (h : wordCount text ≤ maxWords) :
    truncate_text text maxWords = joinSpace (words text) ∧
    (text = joinSpace (words text) → truncate_text text maxWords = text) := by
  have htake : (words text).take maxWords = words text := List.take_of_length_le h
  constructor
  · rw [truncate_text, htake]
  · intro hnorm
    rw [truncate_text, htake, ← hnorm]

/-- Witness for the amended claim C9 at the normalized text `"a b"`. -/
theorem truncate_text_noop_normalized_witness :
    truncate_text "a b".data 2 = joinSpace (words "a b".data) ∧
    ("a b".data = joinSpace (words "a b".data) → truncate_text "a b".data 2 = "a b".data) :=
  truncate_text_noop_normalized "a b".data 2 (by decide)

theorem goodToken_replicate (n : Nat) : ∀ w ∈ List.replicate n ['a'], GoodToken w := by
  intro w hw
  rw [List.eq_of_mem_replicate hw]
  exact ⟨by simp, by decide⟩

theorem wordCount_manyWords (n : Nat) : wordCount (manyWords n) = n := by
  rw [manyWords, wordCount, words_joinSpace _ (goodToken_replicate n), List.length_replicate]

/-- Claim C7: the per-summary ceiling applied by the summarization loop.  A
summary of more than `news_summary_length` words is replaced by its
truncation to exactly that many words; a summary within the ceiling is kept
unmodified. -/
theorem clampSummary_spec (s : PyStr) :
    (wordCount s > newsSummaryLength →
      clampSummary s = truncate_text s newsSummaryLength ∧
      wordCount (clampSummary s) = newsSummaryLength) ∧
    (wordCount s ≤ newsSummaryLength → clampSummary s = s) := by
  constructor
  · intro h
    have hcl : clampSummary s = truncate_text s newsSummaryLength := by
      rw [clampSummary, if_pos h]
    refine ⟨hcl, ?_⟩
    rw [hcl, wordCount, words_truncate_text, List.length_take]
    have : newsSummaryLength ≤ (words s).length := le_of_lt h
    omega
  · intro h
    rw [clampSummary, if_neg (by omega)]

/-- Witness for claim C7: a 5001-word summary is truncated to exactly 5000
words, while a short summary is appended unmodified. -/
theorem clampSummary_spec_witness :
    clampSummary (manyWords 5001) = truncate_text (manyWords 5001) newsSummaryLength ∧
    wordCount (clampSummary (manyWords 5001)) = newsSummaryLength ∧
    clampSummary "short".data = "short".data := by
  have h1 := (clampSummary_spec (manyWords 5001)).1 (by rw [wordCount_manyWords]; decide)
  have h2 := (clampSummary_spec "short".data).2 (by decide)
  exact ⟨h1.1, h1.2, h2⟩

/-- Claim C1 (amended): whenever some pipeline stage raises after the
PROCESSING write, the handler persists exactly a FAILED write whose error
field is the exception's string description (and no result field), and
returns status code 500 with only the generic error body.  The description is
non-empty exactly when the raised exception's `str` is. -/
theorem handler_stage_failure (env : Env) (event : Event)
    (processId question e : PyStr)
    (hpid : event.processId = some processId)
    (hq : event.question = some question)
    (herr : runPipeline env question = Except.error e) :
    handler env event =
      ([DbWrite.setStatus "PROCESSING".data, DbWrite.setStatusError "FAILED".data e],
       Except.ok ⟨500, Body.failure genericErrorMsg, contentTypeJson⟩) := by
  rcases event with ⟨pid, q⟩
  simp only at hpid hq
  subst hpid; subst hq
  simp [handler, herr]

theorem handler_stage_failure_witness :
    handler envC1 eventC1 =
      ([DbWrite.setStatus "PROCESSING".data,
        DbWrite.setStatusError "FAILED".data "boom".data],
       Except.ok ⟨500, Body.failure genericErrorMsg, contentTypeJson⟩) :=
  handler_stage_failure envC1 eventC1 "p1".data "q1".data "boom".data rfl rfl rfl

/-- Counterexample to claim C1 as stated: when the raised exception has an
empty `str`, the persisted error field is the empty string, so the FAILED
write does not carry a non-empty error description. -/
theorem handler_stage_failure_cex :
    (handler envC1bad eventC1).1 =
      [DbWrite.setStatus "PROCESSING".data, DbWrite.setStatusError "FAILED".data []] ∧
    ¬ (∀ w ∈ (handler envC1bad eventC1).1,
        statusOf w = "FAILED".data → errorField w ≠ some []) := by
  constructor
  · rfl
  · intro hall
    exact hall (DbWrite.setStatusError "FAILED".data []) (by decide) rfl rfl

/-- Claim C2 (amended): when every stage succeeds, the handler performs a
single status-store write setting status COMPLETED and the result field
simultaneously — but the stored result is `json.dumps` of the composed text,
not the text itself — and returns 200 with a body carrying the process id,
the completion message, and the exact composed text. -/
theorem handler_success (env : Env) (event : Event)
    (processId question res : PyStr)
    (hpid : event.processId = some processId)
    (hq : event.question = some question)
    (hok : runPipeline env question = Except.ok res) :
    handler env event =
      ([DbWrite.setStatus "PROCESSING".data,
        DbWrite.setStatusResult "COMPLETED".data (pyJsonDumpsStr res)],
       Except.ok ⟨200, Body.success processId processCompletedMsg res, contentTypeJson⟩) := by
  rcases event with ⟨pid, q⟩
  simp only at hpid hq
  subst hpid; subst hq
  simp [handler, hok]

theorem handler_success_witness :
    handler envC2 eventC2 =
      ([DbWrite.setStatus "PROCESSING".data,
        DbWrite.setStatusResult "COMPLETED".data (pyJsonDumpsStr "hi".data)],
       Except.ok ⟨200, Body.success "p2".data processCompletedMsg "hi".data, contentTypeJson⟩) :=
  handler_success envC2 eventC2 "p2".data "q2".data "hi".data rfl rfl rfl

/-- Counterexample to claim C2 as stated: with a composed article `"hi"`,
the persisted result field is the four-character JSON string `"hi"` including
its quotes, not the composed text itself. -/
theorem handler_success_cex :
    (handler envC2 eventC2).1 =
      [DbWrite.setStatus "PROCESSING".data,
       DbWrite.setStatusResult "COMPLETED".data ['"', 'h', 'i', '"']] ∧
    ¬ (∀ w ∈ (handler envC2 eventC2).1,
        statusOf w = "COMPLETED".data → resultField w = some "hi".data) := by
  constructor
  · decide
  · intro hall
    have h := hall (DbWrite.setStatusResult "COMPLETED".data ['"', 'h', 'i', '"'])
      (by decide) rfl
    exact absurd h (by decide)

/-- Claim C5: in every invocation the write trace contains at most one write
of a terminal status, and nothing is written after the first terminal
write. -/
theorem handler_single_terminal_write (env : Env) (event : Event) :
    ((handler env event).1.countP isTerminalWrite ≤ 1) ∧
    (((handler env event).1.dropWhile (fun w => ! isTerminalWrite w)).length ≤ 1) := by
  rcases event with ⟨pid, q⟩
  rcases pid with _ | pid
  · simp [handler]
  · rcases q with _ | q
    · simp [handler]
    · rcases hr : runPipeline env q with e | res
      · simp [handler, hr, List.countP_cons, List.dropWhile,
          isTerminalWrite, statusOf]
      · simp [handler, hr, List.countP_cons, List.dropWhile,
          isTerminalWrite, statusOf]

/-- Claim C10: when either required event key is missing, the handler raises
before the first status write: the trace is empty and no response record is
produced. -/
theorem handler_missing_key (env : Env) (event : Event)
    (h : event.processId = none ∨ event.question = none) :
    (handler env event).1 = [] ∧ ∃ e, (handler env event).2 = Except.error e := by
  rcases event with ⟨pid, q⟩
  simp only at h
  rcases h with h | h
  · subst h
    exact ⟨rfl, "KeyError: processId".data, rfl⟩
  · subst h
    rcases pid with _ | pid
    · exact ⟨rfl, "KeyError: processId".data, rfl⟩
    · exact ⟨rfl, "KeyError: question".data, rfl⟩

theorem handler_missing_key_witness :
    (handler envC10 ⟨none, some "q".data⟩).1 = [] ∧
    ∃ e, (handler envC10 ⟨none, some "q".data⟩).2 = Except.error e :=
  handler_missing_key envC10 ⟨none, some "q".data⟩ (Or.inl rfl)

theorem collectNews_eq_filterMap (extract : PyStr → Except PyStr (Option (Option PyStr))) :
    ∀ (rs : List SearchResult) (out : List NewsRecord),
      collectNews extract rs = Except.ok out →
      out = rs.filterMap (keepResult extract) := by
  intro rs
  induction rs with
  | nil =>
    intro out hok
    simp only [collectNews] at hok
    simp [← Except.ok.inj hok]
  | cons r rest ih =>
    intro out hok
    cases hu : r.url with
    | none =>
      simp only [collectNews, hu] at hok
      simp [List.filterMap_cons, keepResult, hu, ih out hok]
    | some u =>
      cases hx : extract u with
      | error e =>
        simp only [collectNews, hu, hx] at hok
        exact absurd hok (by simp)
      | ok articleData =>
        match articleData with
        | none =>
          simp only [collectNews, hu, hx] at hok
          simp [List.filterMap_cons, keepResult, hu, hx, ih out hok]
        | some none =>
          simp only [collectNews, hu, hx] at hok
          simp [List.filterMap_cons, keepResult, hu, hx, ih out hok]
        | some (some t) =>
          cases hrec : collectNews extract rest with
          | error e =>
            simp only [collectNews, hu, hx, hrec] at hok
            exact absurd hok (by simp)
          | ok tail =>
            simp only [collectNews, hu, hx, hrec] at hok
            have hout : out = ⟨u, r.title, r.date, r.body, t⟩ :: tail :=
              (Except.ok.inj hok).symm
            simp [hout, List.filterMap_cons, keepResult, hu, hx, ih tail hrec]

/-- Claim C4 (amended): whenever the collection loop completes without an
exception, its output is exactly the in-order subsequence of results that
carry a url and whose extraction returned a truthy record containing a text
field (the text may be the empty string); the output is never longer than
the input, hence never longer than the requested limit of 5 when the search
collaborator honors it. -/
theorem collectNews_spec (extract : PyStr → Except PyStr (Option (Option PyStr)))
    (rs : List SearchResult) (out : List NewsRecord)
    (hok : collectNews extract rs = Except.ok out)
    (hlim : rs.length ≤ 5) :
    out = rs.filterMap (keepResult extract) ∧
    out.length ≤ rs.length ∧ out.length ≤ 5 := by
  have h := collectNews_eq_filterMap extract rs out hok
  have hlen : out.length ≤ rs.length := by
    rw [h]
    exact List.length_filterMap_le _ _
  exact ⟨h, hlen, le_trans hlen hlim⟩

theorem collectNews_spec_witness :
    [(⟨"u".data, "t1".data, "d1".data, "b1".data, "x".data⟩ : NewsRecord)] =
      rsC4.filterMap (keepResult extractC4) ∧
    [(⟨"u".data, "t1".data, "d1".data, "b1".data, "x".data⟩ : NewsRecord)].length ≤
      rsC4.length ∧
    [(⟨"u".data, "t1".data, "d1".data, "b1".data, "x".data⟩ : NewsRecord)].length ≤ 5 :=
  collectNews_spec extractC4 rsC4 _ rfl (by decide)

/-- Counterexample to claim C4 as stated: an extraction that returns a truthy
record with an empty text field is kept by the loop, so the output is not
restricted to results whose extraction returned non-empty text. -/
theorem collectNews_empty_text_cex :
    collectNews extractC4bad [rC4] = Except.ok [nrC4] ∧
    nrC4.text = [] ∧
    collectNews extractC4bad [rC4] ≠ Except.ok [] := by
  refine ⟨rfl, rfl, ?_⟩
  rw [show collectNews extractC4bad [rC4] = Except.ok [nrC4] from rfl]
  simp

/-- Claim C8: when collection yields zero usable sources the pipeline still
completes: the handler writes PROCESSING, never consults the summarizer, has
the composer run on the draft consisting of the topic header alone (no
Summary of News Articles block), and writes COMPLETED with a non-empty
result field in the same write.  The conclusion holds for every summarizer
collaborator, which is what "skips summarization" means here. -/
theorem handler_zero_sources (env : Env) (event : Event)
    (processId question res : PyStr) (results : List SearchResult)
    (hpid : event.processId = some processId)
    (hq : event.question = some question)
    (hsearch : env.search question 5 = Except.ok results)
    (hcollect : collectNews env.extract results = Except.ok [])
    (hcompose : env.compose (topicHeader question) = Except.ok res) :
    handler env event =
      ([DbWrite.setStatus "PROCESSING".data,
        DbWrite.setStatusResult "COMPLETED".data (pyJsonDumpsStr res)],
       Except.ok ⟨200, Body.success processId processCompletedMsg res, contentTypeJson⟩) ∧
    buildDraft question [] = topicHeader question ∧
    pyJsonDumpsStr res ≠ [] := by
  have hdraft : buildDraft question [] = topicHeader question := by
    simp [buildDraft]
  have hrp : runPipeline env question = Except.ok res := by
    rw [runPipeline, hsearch, okBind, hcollect, okBind]
    exact hcompose
  refine ⟨?_, hdraft, by simp [pyJsonDumpsStr]⟩
  exact handler_success env event processId question res hpid hq hrp

theorem handler_zero_sources_witness :
    handler envC8 eventC8 =
      ([DbWrite.setStatus "PROCESSING".data,
        DbWrite.setStatusResult "COMPLETED".data (pyJsonDumpsStr "art".data)],
       Except.ok ⟨200, Body.success "p8".data processCompletedMsg "art".data, contentTypeJson⟩) ∧
    buildDraft "q8".data [] = topicHeader "q8".data ∧
    pyJsonDumpsStr "art".data ≠ [] :=
  handler_zero_sources envC8 eventC8 "p8".data "q8".data "art".data [] rfl rfl rfl rfl rfl

theorem newsSummaryLoop_eq_appendSections (f : PyStr → PyStr)
    (g : PyStr → Except PyStr PyStr) (rs : List NewsRecord) :
    ∀ acc : PyStr,
      (∀ nr ∈ rs.take (prefixLen f rs acc), g nr.text = Except.ok (f nr.text)) →
      newsSummaryLoop g rs acc =
        Except.ok (appendSections f acc (rs.take (prefixLen f rs acc))) := by
  induction rs with
  | nil =>
    intro acc hg
    simp [newsSummaryLoop, prefixLen, appendSections]
  | cons nr rest ih =>
    intro acc hg
    by_cases hstop : wordCount (acc ++ recordSection f nr) > newsSummaryLength
    · have hpl : prefixLen f (nr :: rest) acc = 1 := by
        rw [prefixLen, if_pos hstop]
      rw [hpl] at hg ⊢
      have hgn : g nr.text = Except.ok (f nr.text) := hg nr (by simp)
      simp only [newsSummaryLoop, hgn]
      rw [show (acc ++ sectionHeader nr ++ "#### Summary\n\n".data
          ++ clampSummary (f nr.text) ++ "\n\n---\n\n".data) = acc ++ recordSection f nr from by
        simp [recordSection]]
      rw [if_pos hstop]
      simp [appendSections]
    · have hpl : prefixLen f (nr :: rest) acc
          = prefixLen f rest (acc ++ recordSection f nr) + 1 := by
        rw [prefixLen, if_neg hstop]
      rw [hpl] at hg ⊢
      rw [List.take_succ_cons] at hg ⊢
      have hgn : g nr.text = Except.ok (f nr.text) := hg nr (by simp)
      simp only [newsSummaryLoop, hgn]
      rw [show (acc ++ sectionHeader nr ++ "#### Summary\n\n".data
          ++ clampSummary (f nr.text) ++ "\n\n---\n\n".data) = acc ++ recordSection f nr from by
        simp [recordSection]]
      rw [if_neg hstop]
      rw [show appendSections f acc
            (nr :: rest.take (prefixLen f rest (acc ++ recordSection f nr)))
          = appendSections f (acc ++ recordSection f nr)
              (rest.take (prefixLen f rest (acc ++ recordSection f nr))) from rfl]
      exact ih (acc ++ recordSection f nr) (fun x hx => hg x (List.mem_cons_of_mem nr hx))

theorem prefixLen_le (f : PyStr → PyStr) (rs : List NewsRecord) :
    ∀ acc : PyStr, prefixLen f rs acc ≤ rs.length := by
  induction rs with
  | nil => intro acc; simp [prefixLen]
  | cons nr rest ih =>
    intro acc
    rw [prefixLen]
    split
    · simp
    · have := ih (acc ++ recordSection f nr)
      simp only [List.length_cons]
      omega

theorem prefixLen_stop (f : PyStr → PyStr) (rs : List NewsRecord) :
    ∀ acc : PyStr,
      prefixLen f rs acc = rs.length ∨
      wordCount (appendSections f acc (rs.take (prefixLen f rs acc))) > newsSummaryLength := by
  induction rs with
  | nil => intro acc; left; simp [prefixLen]
  | cons nr rest ih =>
    intro acc
    by_cases hstop : wordCount (acc ++ recordSection f nr) > newsSummaryLength
    · right
      have hpl : prefixLen f (nr :: rest) acc = 1 := by rw [prefixLen, if_pos hstop]
      rw [hpl]
      simpa [appendSections] using hstop
    · have hpl : prefixLen f (nr :: rest) acc
          = prefixLen f rest (acc ++ recordSection f nr) + 1 := by
        rw [prefixLen, if_neg hstop]
      rw [hpl, List.take_succ_cons]
      rcases ih (acc ++ recordSection f nr) with h1 | h1
      · left; simp [h1]
      · right
        rw [show appendSections f acc
              (nr :: rest.take (prefixLen f rest (acc ++ recordSection f nr)))
            = appendSections f (acc ++ recordSection f nr)
                (rest.take (prefixLen f rest (acc ++ recordSection f nr))) from rfl]
        exact h1

theorem prefixLen_minimal (f : PyStr → PyStr) (rs : List NewsRecord) :
    ∀ acc : PyStr, wordCount acc ≤ newsSummaryLength →
      ∀ j < prefixLen f rs acc,
        j < rs.length ∧
        wordCount (appendSections f acc (rs.take j)) ≤ newsSummaryLength := by
  induction rs with
  | nil =>
    intro acc hacc j hj
    rw [prefixLen] at hj
    omega
  | cons nr rest ih =>
    intro acc hacc j hj
    by_cases hstop : wordCount (acc ++ recordSection f nr) > newsSummaryLength
    · have hpl : prefixLen f (nr :: rest) acc = 1 := by rw [prefixLen, if_pos hstop]
      rw [hpl] at hj
      have hj0 : j = 0 := by omega
      subst hj0
      exact ⟨by simp, by simpa [appendSections] using hacc⟩
    · have hpl : prefixLen f (nr :: rest) acc
          = prefixLen f rest (acc ++ recordSection f nr) + 1 := by
        rw [prefixLen, if_neg hstop]
      rw [hpl] at hj
      cases j with
      | zero => exact ⟨by simp, by simpa [appendSections] using hacc⟩
      | succ j =>
        have hj1 : j < prefixLen f rest (acc ++ recordSection f nr) := by omega
        have hrec := ih (acc ++ recordSection f nr) (by omega) j hj1
        constructor
        · have := hrec.1
          simp only [List.length_cons]
          omega
        · rw [List.take_succ_cons]
          rw [show appendSections f acc (nr :: rest.take j)
              = appendSections f (acc ++ recordSection f nr) (rest.take j) from rfl]
          exact hrec.2

/-- Claim C3: when the summarizer collaborator g agrees with the pure
abstraction f on the records the loop reaches, the loop output is exactly
the concatenation of the per-record sections of a prefix of the input, and
that prefix is the smallest one that either consumes all records or whose
accumulated word count, measured after appending each record's section,
exceeds the 5000-word budget; records after the prefix contribute nothing
(the loop stops without summarizing them). -/
theorem newsSummaryLoop_smallest_prefix (f : PyStr → PyStr)
    (g : PyStr → Except PyStr PyStr) (rs : List NewsRecord)
    (hg : ∀ nr ∈ rs.take (prefixLen f rs []), g nr.text = Except.ok (f nr.text)) :
    newsSummaryLoop g rs [] =
      Except.ok (appendSections f [] (rs.take (prefixLen f rs []))) ∧
    prefixLen f rs [] ≤ rs.length ∧
    (prefixLen f rs [] = rs.length ∨
      wordCount (appendSections f [] (rs.take (prefixLen f rs []))) > newsSummaryLength) ∧
    ∀ j < prefixLen f rs [],
      j < rs.length ∧
      wordCount (appendSections f [] (rs.take j)) ≤ newsSummaryLength :=
  ⟨newsSummaryLoop_eq_appendSections f g rs [] hg, prefixLen_le f rs [],
   prefixLen_stop f rs [], prefixLen_minimal f rs [] (by decide)⟩

theorem newsSummaryLoop_smallest_prefix_witness :
    newsSummaryLoop gC3 rsC3 [] =
      Except.ok (appendSections fC3 [] (rsC3.take (prefixLen fC3 rsC3 []))) ∧
    prefixLen fC3 rsC3 [] ≤ rsC3.length ∧
    (prefixLen fC3 rsC3 [] = rsC3.length ∨
      wordCount (appendSections fC3 [] (rsC3.take (prefixLen fC3 rsC3 []))) > newsSummaryLength) ∧
    ∀ j < prefixLen fC3 rsC3 [],
      j < rsC3.length ∧
      wordCount (appendSections fC3 [] (rsC3.take j)) ≤ newsSummaryLength :=
  newsSummaryLoop_smallest_prefix fC3 gC3 rsC3 (fun _ _ => rfl)
